import Mathlib

/-!
Shallow embedding of `pkg/httpclient/client.go` from the
data-ingestion-pipeline-go repository: the token-bucket rate limiter, the
error classifier (`isRetryableError`), the single-call executor
(`doRequest`), URL building (`buildURL`) and the retry orchestrator
(`doRequestWithRetry`), together with theorems settling the spec claims.

Strings from the Go source (URLs, paths, messages) are modelled as
`List Char`; durations as natural numbers of nanoseconds; `panic` and
indefinite blocking as `Option`/`none`; the ambient effects of one HTTP
attempt (JSON marshalling, the transport, body reading, JSON unmarshalling)
as an explicit per-attempt environment supplied by an oracle, and the
caller's context as, at each suspension point, either "proceed" or
"cancelled with this reason".
-/

namespace HttpClient

/-- `Config` from client.go: BaseURL, Timeout, RetryCount, RetryDelay,
RateLimit (requests per second). Durations in nanoseconds. -/
structure Config where
  baseURL : List Char
  timeout : Nat
  retryCount : Nat
  retryDelay : Nat
  rateLimit : Nat
  deriving DecidableEq, Repr

/-- `HTTPError` from client.go: method, URL, status code (0 when no response
was received), message and elapsed duration. -/
structure HTTPError where
  method : List Char
  url : List Char
  statusCode : Nat
  message : List Char
  duration : Nat
  deriving DecidableEq, Repr

/-- The errors a single `doRequest` call can return: the structured
`*HTTPError`, or one of the `fmt.Errorf`-wrapped plain errors
("failed to marshal request body", "failed to create request",
"failed to read response body", "failed to unmarshal response"). -/
inductive ReqError where
  | http (e : HTTPError)
  | marshal (msg : List Char)
  | createRequest (msg : List Char)
  | readBody (msg : List Char)
  | unmarshal (msg : List Char)
  deriving DecidableEq, Repr

/-- `isRetryableError` from client.go: a type assertion on `*HTTPError`
checks `StatusCode >= 500 || StatusCode == 429 || StatusCode == 408`;
every other error falls through to `return true`. -/
def isRetryableError : ReqError → Bool
  | .http httpErr =>
      decide (500 ≤ httpErr.statusCode) || decide (httpErr.statusCode = 429)
        || decide (httpErr.statusCode = 408)
  | _ => true

/-- `buildURL` from client.go: empty base URL returns the path unchanged;
otherwise `path[0]` is inspected (Go panics on an empty string, modelled as
`none`), a `'/'` is prepended when absent, and the result is
`BaseURL + path`. -/
def buildURL (baseURL path : List Char) : Option (List Char) :=
  if baseURL = [] then some path
  else
    match path with
    | [] => none
    | c :: _ => if c ≠ '/' then some (baseURL ++ '/' :: path)
                else some (baseURL ++ path)

end HttpClient

namespace HttpClient

/-- The rate limiter of client.go: a buffered channel of capacity
`Config.RateLimit` used as a token pool. `tokens` is the number of buffered
tokens. -/
structure RateLimiter where
  capacity : Nat
  tokens : Nat
  deriving DecidableEq, Repr

/-- Construction in `New`: `make(chan struct{}, config.RateLimit)` followed
by a loop sending `config.RateLimit` tokens — the pool starts full. -/
def RateLimiter.init (n : Nat) : RateLimiter := ⟨n, n⟩

/-- One tick of the refill goroutine in `New`:
`select { case rateLimiter <- struct{}{}: ... default: }` — add a token
when the buffer has room, otherwise drop the tick. -/
def RateLimiter.refillTick (rl : RateLimiter) : RateLimiter :=
  if rl.tokens < rl.capacity then ⟨rl.capacity, rl.tokens + 1⟩ else rl

/-- `<-hc.rateLimiter`: receive a token. `none` models blocking on an
empty pool. -/
def RateLimiter.acquire (rl : RateLimiter) : Option RateLimiter :=
  if 0 < rl.tokens then some ⟨rl.capacity, rl.tokens - 1⟩ else none

/-- `n` consecutive successful acquisitions. -/
def RateLimiter.acquireN : Nat → RateLimiter → Option RateLimiter
  | 0, rl => some rl
  | n + 1, rl =>
      match rl.acquire with
      | some rl' => RateLimiter.acquireN n rl'
      | none => none

/-- The states of the limiter reachable from construction at capacity `n`
by any interleaving of refill ticks and successful acquisitions. -/
inductive RateLimiter.Reachable (n : Nat) : RateLimiter → Prop where
  | init : RateLimiter.Reachable n (RateLimiter.init n)
  | tick {s : RateLimiter} : RateLimiter.Reachable n s →
      RateLimiter.Reachable n s.refillTick
  | acq {s s' : RateLimiter} : RateLimiter.Reachable n s →
      s.acquire = some s' → RateLimiter.Reachable n s'

/-- The period computed by the refill goroutine,
`time.Second / time.Duration(config.RateLimit)`, in nanoseconds; Go's
integer division panics when `RateLimit` is zero, modelled as `none`. -/
def refillPeriodNanos (rateLimit : Nat) : Option Nat :=
  if rateLimit = 0 then none else some (1000000000 / rateLimit)

/-- `New` from client.go: constructs the client with its token pool; the
function performs no validation and its signature returns only `Client`,
so construction never reports an error. -/
def New (config : Config) : RateLimiter := RateLimiter.init config.rateLimit

/-- The ambient outcomes of one attempt of `doRequest`, fixed by the outside
world: the result of `json.Marshal(body)` (error message or bytes), a
creation error from `http.NewRequestWithContext` if any, the transport
result of `hc.client.Do` (error message, or status plus body bytes) with its
elapsed duration, a read error from `io.ReadAll` if any, and the behaviour
of `json.Unmarshal` on the response body (error message, or the decoded
value written into the destination of type `σ`). -/
structure AttemptEnv (σ : Type) where
  marshal : Except (List Char) (List Char)
  createErr : Option (List Char)
  doResult : Except (List Char) (Nat × List Char)
  duration : Nat
  readErr : Option (List Char)
  decode : List Char → Except (List Char) σ

/-- The part of `doRequest` after the request body has been produced:
create the request, perform it (a transport error becomes an `HTTPError`
with status 0), read the body, reject statuses outside [200,300) as an
`HTTPError` carrying the body text, and unmarshal into the destination only
when one was supplied and the body is non-empty. Returns the error or
success together with the (possibly updated) destination. -/
def doRequestCore {σ : Type} (method url : List Char) (env : AttemptEnv σ)
    (dest : Option σ) : Except ReqError Unit × Option σ :=
  match env.createErr with
  | some msg => (.error (.createRequest msg), dest)
  | none =>
    match env.doResult with
    | .error msg => (.error (.http ⟨method, url, 0, msg, env.duration⟩), dest)
    | .ok (status, respBody) =>
      match env.readErr with
      | some msg => (.error (.readBody msg), dest)
      | none =>
        if status < 200 ∨ 300 ≤ status then
          (.error (.http ⟨method, url, status, respBody, env.duration⟩), dest)
        else
          match dest with
          | none => (.ok (), none)
          | some d =>
            if 0 < respBody.length then
              match env.decode respBody with
              | .error msg => (.error (.unmarshal msg), some d)
              | .ok v => (.ok (), some v)
            else (.ok (), some d)

/-- `doRequest` from client.go: when a request body is present it is
marshalled first (failure is returned as a marshal error); then the single
HTTP attempt of `doRequestCore` runs. -/
def doRequest {σ : Type} (method url : List Char) (hasBody : Bool)
    (env : AttemptEnv σ) (dest : Option σ) : Except ReqError Unit × Option σ :=
  if hasBody then
    match env.marshal with
    | .error msg => (.error (.marshal msg), dest)
    | .ok _ => doRequestCore method url env dest
  else doRequestCore method url env dest

/-- The caller's context observed at one suspension point: `none` when the
wait completes normally, `some reason` when `ctx.Done()` fires first and
`ctx.Err()` returns `reason` (e.g. context.Canceled or
context.DeadlineExceeded). -/
abbrev CancelSignal := Option (List Char)

/-- What the world does around attempt number `k`: the context at the
rate-limiter token wait, the attempt's environment, and the context at the
inter-attempt delay. -/
structure AttemptOracle (σ : Type) where
  tokenCancel : CancelSignal
  env : AttemptEnv σ
  delayCancel : CancelSignal

/-- The error returned by `doRequestWithRetry`: the attempt's own error
unchanged (non-retryable path), the last error wrapped as
`fmt.Errorf("request failed after %d attempts: %w", retryCount+1, lastErr)`
(exhaustion path), or `ctx.Err()` (cancellation at a suspension point). -/
inductive RetryError where
  | req (e : ReqError)
  | wrapped (attempts : Nat) (e : ReqError)
  | ctx (reason : List Char)
  deriving DecidableEq, Repr

/-- The retry loop of `doRequestWithRetry`, from attempt number `attempt`
with `left = retryCount - attempt` further attempts allowed. Each iteration
waits for a rate-limiter token (returning `ctx.Err()` if cancellation fires
first), runs `doRequest`, returns on success, returns a non-retryable error
unchanged, sleeps the retry delay before all but the last attempt (again
returning `ctx.Err()` on cancellation), and after the last attempt wraps
the last error with the total attempt count `retryCount + 1`. The returned
`Nat` counts the `doRequest` invocations performed. -/
def retryLoop {σ : Type} (oracle : Nat → AttemptOracle σ) (retryCount : Nat)
    (method fullURL : List Char) (hasBody : Bool) :
    Nat → Nat → Option σ → Nat → Except RetryError Unit × Option σ × Nat
  | attempt, left, dest, count =>
    match (oracle attempt).tokenCancel with
    | some reason => (.error (.ctx reason), dest, count)
    | none =>
      match doRequest method fullURL hasBody (oracle attempt).env dest with
      | (.ok _, dest') => (.ok (), dest', count + 1)
      | (.error e, dest') =>
        if isRetryableError e then
          match left with
          | 0 => (.error (.wrapped (retryCount + 1) e), dest', count + 1)
          | left' + 1 =>
            match (oracle attempt).delayCancel with
            | some reason => (.error (.ctx reason), dest', count + 1)
            | none =>
                retryLoop oracle retryCount method fullURL hasBody
                  (attempt + 1) left' dest' (count + 1)
        else (.error (.req e), dest', count + 1)

/-- `doRequestWithRetry` from client.go: build the full URL (propagating
the panic of `buildURL` on an empty path as `none`), then run the retry
loop for attempts `0 .. retryCount`. -/
def doRequestWithRetry {σ : Type} (oracle : Nat → AttemptOracle σ)
    (config : Config) (method url : List Char) (hasBody : Bool)
    (dest : Option σ) : Option (Except RetryError Unit × Option σ × Nat) :=
  match buildURL config.baseURL url with
  | none => none
  | some fullURL =>
      some (retryLoop oracle config.retryCount method fullURL hasBody
        0 config.retryCount dest 0)

/-- `Get` from client.go. -/
def Get {σ : Type} (oracle : Nat → AttemptOracle σ) (config : Config)
    (url : List Char) (result : Option σ) :
    Option (Except RetryError Unit × Option σ × Nat) :=
  doRequestWithRetry oracle config ['G', 'E', 'T'] url false result

/-- `Post` from client.go. -/
def Post {σ : Type} (oracle : Nat → AttemptOracle σ) (config : Config)
    (url : List Char) (result : Option σ) :
    Option (Except RetryError Unit × Option σ × Nat) :=
  doRequestWithRetry oracle config ['P', 'O', 'S', 'T'] url true result

/-- `Put` from client.go. -/
def Put {σ : Type} (oracle : Nat → AttemptOracle σ) (config : Config)
    (url : List Char) (result : Option σ) :
    Option (Except RetryError Unit × Option σ × Nat) :=
  doRequestWithRetry oracle config ['P', 'U', 'T'] url true result

/-- `Delete` from client.go: no body and no result destination. -/
def Delete {σ : Type} (oracle : Nat → AttemptOracle σ) (config : Config)
    (url : List Char) : Option (Except RetryError Unit × Option σ × Nat) :=
  doRequestWithRetry oracle config ['D', 'E', 'L', 'E', 'T', 'E'] url
    false none

/-- The URL-joining rule exactly as the spec states it, for comparison with
`buildURL`: "base URL + path, with exactly one separating slash regardless
of whether the path already starts with one"; an empty base URL leaves the
path as-is. Leading slashes of the path are removed so that exactly one
slash separates base and path. -/
def joinSingleSlash (baseURL path : List Char) : List Char :=
  if baseURL = [] then path
  else baseURL ++ '/' :: path.dropWhile (· = '/')

/-- A world where every `hc.client.Do` fails at the transport level
(connection refused) before any response is received. -/
def transportFailOracle : Nat → AttemptOracle Unit :=
  fun _ => ⟨none, ⟨.ok [], none, .error ['r', 'e', 'f'], 7, none,
    fun _ => .ok ()⟩, none⟩

/-- A world where every attempt's request body fails `json.Marshal`. -/
def marshalFailOracle : Nat → AttemptOracle Unit :=
  fun _ => ⟨none, ⟨.error ['m'], none, .ok (200, []), 1, none,
    fun _ => .ok ()⟩, none⟩

/-- A world where every attempt receives a 200 response whose body fails
`json.Unmarshal`. -/
def decodeFailOracle : Nat → AttemptOracle Unit :=
  fun _ => ⟨none, ⟨.ok [], none, .ok (200, ['b']), 1, none,
    fun _ => .error ['d']⟩, none⟩

/-- A world where every attempt receives the given HTTP status with body
`"b"`, with no cancellation. -/
def alwaysStatusOracle (status : Nat) : Nat → AttemptOracle Unit :=
  fun _ => ⟨none, ⟨.ok [], none, .ok (status, ['b']), 1, none,
    fun _ => .ok ()⟩, none⟩

/-- A world where the caller's context is cancelled (reason `"c"`) while
every attempt waits for a rate-limiter token. -/
def tokenCancelOracle : Nat → AttemptOracle Unit :=
  fun _ => ⟨some ['c'], ⟨.ok [], none, .ok (200, []), 1, none,
    fun _ => .ok ()⟩, none⟩

/-- A world where every attempt fails with a retryable 503 and the caller's
context is cancelled (reason `"c"`) during the inter-attempt delay. -/
def delayCancelOracle : Nat → AttemptOracle Unit :=
  fun _ => ⟨none, ⟨.ok [], none, .ok (503, []), 1, none,
    fun _ => .ok ()⟩, some ['c']⟩

/-- One attempt environment returning `204` with an empty body; the decoder
would write `9` if it were consulted. -/
def emptyBodyEnv : AttemptEnv Nat :=
  ⟨.ok [], none, .ok (204, []), 1, none, fun _ => .ok 9⟩

/-- Every reachable limiter state keeps the construction capacity and never
holds more than `n` tokens: a refill tick at capacity is dropped and an
acquisition only decreases the count. -/
theorem RateLimiter.reachable_invariant (n : Nat) (s : RateLimiter)
    (h : RateLimiter.Reachable n s) : s.capacity = n ∧ s.tokens ≤ n := by
  induction h with
  | init => exact ⟨rfl, Nat.le_refl n⟩
  | tick _ ih =>
    obtain ⟨ih1, ih2⟩ := ih
    unfold RateLimiter.refillTick
    split
    next hlt => exact ⟨ih1, by simp only []; omega⟩
    next => exact ⟨ih1, ih2⟩
  | acq _ hacq ih =>
    obtain ⟨ih1, ih2⟩ := ih
    unfold RateLimiter.acquire at hacq
    split at hacq
    next hpos =>
      cases hacq
      exact ⟨ih1, by simp only []; omega⟩
    next => cases hacq

/-- From a pool of `t ≥ k` tokens, `k` acquisitions succeed and leave
`t - k` tokens. -/
theorem RateLimiter.acquireN_of_le (k : Nat) : ∀ c t : Nat, k ≤ t →
    RateLimiter.acquireN k ⟨c, t⟩ = some ⟨c, t - k⟩ := by
  induction k with
  | zero => intro c t _; simp [RateLimiter.acquireN]
  | succ k ih =>
    intro c t hkt
    have ht : 0 < t := by omega
    have hstep : RateLimiter.acquire ⟨c, t⟩ = some ⟨c, t - 1⟩ := by
      unfold RateLimiter.acquire
      simp [ht]
    have := ih c (t - 1) (by omega)
    unfold RateLimiter.acquireN
    rw [hstep]
    simp only [this]
    congr 2
    omega

/-- When every attempt fails with a retryable error and no cancellation
fires, the retry loop runs through all remaining attempts and wraps the
last error with the total attempt count `retryCount + 1`. -/
theorem retryLoop_all_retryable {σ : Type} (oracle : Nat → AttemptOracle σ)
    (retryCount : Nat) (method fullURL : List Char) (hasBody : Bool)
    (dest : Option σ) (errs : Nat → ReqError)
    (hno : ∀ k, (oracle k).tokenCancel = none ∧ (oracle k).delayCancel = none)
    (hfail : ∀ k, doRequest method fullURL hasBody (oracle k).env dest
      = (.error (errs k), dest))
    (hretry : ∀ k, isRetryableError (errs k) = true) :
    ∀ left attempt count,
      retryLoop oracle retryCount method fullURL hasBody attempt left dest count
        = (.error (.wrapped (retryCount + 1) (errs (attempt + left))), dest,
            count + left + 1) := by
  intro left
  induction left with
  | zero =>
    intro attempt count
    rw [retryLoop, (hno attempt).1, hfail attempt]
    simp [hretry attempt]
  | succ left ih =>
    intro attempt count
    rw [retryLoop, (hno attempt).1, hfail attempt]
    simp only [hretry attempt, if_true, (hno attempt).2]
    rw [ih (attempt + 1) (count + 1)]
    have h1 : attempt + 1 + left = attempt + (left + 1) := by omega
    have h2 : count + 1 + left + 1 = count + (left + 1) + 1 := by omega
    rw [h1, h2]

/-- C1: the classifier is NOT the stated policy. A `CallError` with status 0
(transport failure before any response) is classified non-retryable —
`hc.client.Do` errors are wrapped into an `HTTPError` with `StatusCode: 0`,
which fails all three checks of `isRetryableError`, so the "retry on network
errors" fallthrough is never reached for them — and any status ≥ 600 is
classified retryable (`StatusCode >= 500` has no upper bound). Consequently
a permanently connection-refused target with RetryCount = 2 is attempted
exactly once and its error returned unchanged. -/
theorem isRetryableError_violates_policy :
    isRetryableError (.http ⟨['G', 'E', 'T'], ['/', 'u'], 0,
        ['r', 'e', 'f'], 7⟩) = false ∧
    isRetryableError (.http ⟨['G', 'E', 'T'], ['/', 'u'], 600, [], 7⟩)
      = true ∧
    Get transportFailOracle ⟨[], 0, 2, 0, 1⟩ ['/', 'u'] (none : Option Unit)
      = some (.error (.req (.http ⟨['G', 'E', 'T'], ['/', 'u'], 0,
          ['r', 'e', 'f'], 7⟩)), none, 1) :=
  ⟨rfl, rfl, rfl⟩

/-- C2: with max retries R and every attempt failing with a retryable
error (no cancellation), the orchestrator performs exactly R + 1 attempts
and returns the last attempt's error wrapped with the total attempt count
R + 1, leaving the result destination unchanged. -/
theorem retry_exhausts_after_R_plus_1 {σ : Type}
    (oracle : Nat → AttemptOracle σ) (config : Config)
    (method url fullURL : List Char) (hasBody : Bool) (dest : Option σ)
    (errs : Nat → ReqError)
    (hurl : buildURL config.baseURL url = some fullURL)
    (hno : ∀ k, (oracle k).tokenCancel = none ∧ (oracle k).delayCancel = none)
    (hfail : ∀ k, doRequest method fullURL hasBody (oracle k).env dest
      = (.error (errs k), dest))
    (hretry : ∀ k, isRetryableError (errs k) = true) :
    doRequestWithRetry oracle config method url hasBody dest
      = some (.error (.wrapped (config.retryCount + 1)
          (errs config.retryCount)), dest, config.retryCount + 1) := by
  simp only [doRequestWithRetry, hurl]
  rw [retryLoop_all_retryable oracle config.retryCount method fullURL hasBody
    dest errs hno hfail hretry config.retryCount 0 0]
  simp

/-- C2 witness: an always-503 target with RetryCount = 2 is attempted
exactly 3 times and the 503 error is returned wrapped with count 3. -/
theorem retry_exhausts_after_R_plus_1_witness :
    doRequestWithRetry (alwaysStatusOracle 503) ⟨[], 0, 2, 0, 1⟩ ['G']
        ['/', 'u'] false (none : Option Unit)
      = some (.error (.wrapped 3 (.http ⟨['G'], ['/', 'u'], 503, ['b'], 1⟩)),
          none, 3) :=
  retry_exhausts_after_R_plus_1 (alwaysStatusOracle 503) ⟨[], 0, 2, 0, 1⟩
    ['G'] ['/', 'u'] ['/', 'u'] false none
    (fun _ => .http ⟨['G'], ['/', 'u'], 503, ['b'], 1⟩)
    rfl (fun _ => ⟨rfl, rfl⟩) (fun _ => rfl) (fun _ => rfl)

/-- C3: marshal and decode failures are NOT fatal: `isRetryableError`'s
fallthrough returns `true` for every non-`HTTPError` error, so a request
body that fails `json.Marshal` (and a 2xx response whose body fails
`json.Unmarshal`) is retried like a transient failure; with RetryCount = 2
the client performs 3 attempts and returns the exhaustion wrapper, not the
error after a single attempt. -/
theorem marshal_decode_errors_are_retried :
    isRetryableError (.marshal ['m']) = true ∧
    isRetryableError (.unmarshal ['d']) = true ∧
    Post marshalFailOracle ⟨[], 0, 2, 0, 1⟩ ['/', 'u'] (none : Option Unit)
      = some (.error (.wrapped 3 (.marshal ['m'])), none, 3) ∧
    Get decodeFailOracle ⟨[], 0, 2, 0, 1⟩ ['/', 'u'] (some ())
      = some (.error (.wrapped 3 (.unmarshal ['d'])), some (), 3) :=
  ⟨rfl, rfl, rfl, rfl⟩

/-- C4: a first attempt failing with a non-retryable error ends the call
after exactly one attempt, and the attempt's own `CallError` is returned
unchanged (not wrapped), whatever RetryCount is configured. -/
theorem nonretryable_returns_original_after_one_attempt {σ : Type}
    (oracle : Nat → AttemptOracle σ) (config : Config)
    (method url fullURL : List Char) (hasBody : Bool) (dest : Option σ)
    (e : ReqError)
    (hurl : buildURL config.baseURL url = some fullURL)
    (htok : (oracle 0).tokenCancel = none)
    (hfail : doRequest method fullURL hasBody (oracle 0).env dest
      = (.error e, dest))
    (hnr : isRetryableError e = false) :
    doRequestWithRetry oracle config method url hasBody dest
      = some (.error (.req e), dest, 1) := by
  simp only [doRequestWithRetry, hurl]
  rw [retryLoop, htok, hfail]
  simp [hnr]

/-- C4 witness: a 404 target with RetryCount = 5 is attempted once and the
original 404 `CallError` (same status, same message) comes back. -/
theorem nonretryable_returns_original_after_one_attempt_witness :
    doRequestWithRetry (alwaysStatusOracle 404) ⟨[], 0, 5, 0, 1⟩ ['G']
        ['/', 'u'] false (none : Option Unit)
      = some (.error (.req (.http ⟨['G'], ['/', 'u'], 404, ['b'], 1⟩)),
          none, 1) :=
  nonretryable_returns_original_after_one_attempt (alwaysStatusOracle 404)
    ⟨[], 0, 5, 0, 1⟩ ['G'] ['/', 'u'] ['/', 'u'] false none
    (.http ⟨['G'], ['/', 'u'], 404, ['b'], 1⟩)
    rfl rfl rfl (by decide)

/-- C5: cancellation firing at a suspension point aborts the call at once
with the context's own reason, never a `CallError`: firing during the
token wait of an attempt returns `ctx.Err()` with no further `doRequest`
performed (the attempt count stays as it was), and firing during the
inter-attempt delay returns `ctx.Err()` right after the current attempt. -/
theorem cancellation_aborts_immediately {σ : Type}
    (oracle : Nat → AttemptOracle σ) (retryCount : Nat)
    (method fullURL : List Char) (hasBody : Bool) :
    (∀ attempt left count (dest : Option σ) reason,
      (oracle attempt).tokenCancel = some reason →
      retryLoop oracle retryCount method fullURL hasBody attempt left dest
          count
        = (.error (.ctx reason), dest, count)) ∧
    (∀ attempt left count (dest dest' : Option σ) (e : ReqError) reason,
      (oracle attempt).tokenCancel = none →
      doRequest method fullURL hasBody (oracle attempt).env dest
        = (.error e, dest') →
      isRetryableError e = true →
      (oracle attempt).delayCancel = some reason →
      retryLoop oracle retryCount method fullURL hasBody attempt (left + 1)
          dest count
        = (.error (.ctx reason), dest', count + 1)) := by
  constructor
  · intro attempt left count dest reason hc
    rw [retryLoop, hc]
  · intro attempt left count dest dest' e reason htok hreq hr hd
    rw [retryLoop, htok, hreq]
    simp [hr, hd]

/-- C5 witness: with cancellation pending at the token wait the call ends
with the cancellation reason after 0 attempts; with a 503 first attempt and
cancellation pending at the delay it ends with the reason after 1 attempt. -/
theorem cancellation_aborts_immediately_witness :
    retryLoop tokenCancelOracle 3 ['G'] ['u'] false 0 3 (none : Option Unit) 0
      = (.error (.ctx ['c']), none, 0) ∧
    retryLoop delayCancelOracle 3 ['G'] ['u'] false 0 3 (none : Option Unit) 0
      = (.error (.ctx ['c']), none, 1) :=
  ⟨(cancellation_aborts_immediately tokenCancelOracle 3 ['G'] ['u']
      false).1 0 3 0 none ['c'] rfl,
   (cancellation_aborts_immediately delayCancelOracle 3 ['G'] ['u']
      false).2 0 2 0 none none (.http ⟨['G'], ['u'], 503, [], 1⟩) ['c']
      rfl rfl (by decide) rfl⟩

/-- C6: the token pool starts with exactly its capacity `n` of tokens (so
the first `n` acquisitions all succeed, draining it to 0), a refill tick on
a full pool is a no-op, and every reachable limiter state holds at most `n`
tokens. -/
theorem rateLimiter_bounded_and_starts_full (n : Nat) :
    (RateLimiter.init n).tokens = n ∧
    RateLimiter.acquireN n (RateLimiter.init n) = some ⟨n, 0⟩ ∧
    (∀ s : RateLimiter, s.tokens = s.capacity → s.refillTick = s) ∧
    (∀ s : RateLimiter, RateLimiter.Reachable n s → s.tokens ≤ n) := by
  refine ⟨rfl, ?_, ?_, ?_⟩
  · have h := RateLimiter.acquireN_of_le n n n (Nat.le_refl n)
    simpa [RateLimiter.init] using h
  · intro s hs
    unfold RateLimiter.refillTick
    split
    next h => exact absurd h (by omega)
    next => rfl
  · intro s hs
    exact (RateLimiter.reachable_invariant n s hs).2

/-- C6 witness: at capacity 3 the pool starts with 3 tokens, 3 acquisitions
drain it, and the initial state (reachable by construction) is within the
bound. -/
theorem rateLimiter_bounded_and_starts_full_witness :
    RateLimiter.acquireN 3 (RateLimiter.init 3) = some ⟨3, 0⟩ ∧
    (RateLimiter.init 3).tokens ≤ 3 :=
  ⟨(rateLimiter_bounded_and_starts_full 3).2.1,
   (rateLimiter_bounded_and_starts_full 3).2.2.2 (RateLimiter.init 3)
     RateLimiter.Reachable.init⟩

/-- C7 counterexample: for the path `"//b"` the built URL `"x//b"` is not
the base and path joined with exactly one separating slash (`"x/b"`): the
code only prepends a slash when absent and never collapses repeats. -/
theorem buildURL_double_slash_counterexample :
    buildURL ['x'] ['/', '/', 'b']
      ≠ some (joinSingleSlash ['x'] ['/', '/', 'b']) := by
  decide

/-- C7 (amended): for every base URL and every non-empty path that does not
begin with two slashes, the full URL is the base URL and the path joined
with exactly one separating slash, regardless of whether the path already
starts with one; an empty base URL returns the path as-is. -/
theorem buildURL_joins_with_single_slash (baseURL path : List Char)
    (hne : path ≠ []) (hns : path.take 2 ≠ ['/', '/']) :
    buildURL baseURL path = some (joinSingleSlash baseURL path) := by
  rcases path with _ | ⟨c, rest⟩
  · exact absurd rfl hne
  · unfold buildURL joinSingleSlash
    by_cases hb : baseURL = []
    · simp [hb]
    · rw [if_neg hb, if_neg hb]
      by_cases hc : c = '/'
      · subst hc
        rcases rest with _ | ⟨r, t⟩
        · simp [List.dropWhile]
        · have hr : ¬(r = '/') := by
            intro h
            subst h
            exact hns rfl
          simp [List.dropWhile, hr]
      · simp [List.dropWhile, hc]

/-- C7 witness for the amended claim: base `"x"` and path `"a"` join as
`"x/a"`. -/
theorem buildURL_joins_with_single_slash_witness :
    buildURL ['x'] ['a'] = some (joinSingleSlash ['x'] ['a']) :=
  buildURL_joins_with_single_slash ['x'] ['a'] (by decide) (by decide)

/-- C8: constructing a client with rate limit 0 does NOT fail fast: `New`
performs no validation and returns a client (its signature cannot report an
error) whose token pool has capacity 0 and no tokens — every acquisition
blocks — while the refill goroutine's period `1s / 0` is an integer
division by zero (a runtime panic, modelled as `none`). -/
theorem new_rateLimit_zero_does_not_fail_fast :
    New ⟨[], 1000, 3, 100, 0⟩ = ⟨0, 0⟩ ∧
    (New ⟨[], 1000, 3, 100, 0⟩).acquire = none ∧
    refillPeriodNanos 0 = none := by
  decide

/-- C9: with a non-empty base URL, every public method called with the
empty string as url panics (out-of-range `path[0]` in `buildURL`, modelled
as `none`) instead of returning an error value. -/
theorem empty_url_panics {σ : Type} (oracle : Nat → AttemptOracle σ)
    (config : Config) (dest : Option σ) (hbase : config.baseURL ≠ []) :
    Get oracle config [] dest = none ∧
    Post oracle config [] dest = none ∧
    Put oracle config [] dest = none ∧
    Delete (σ := σ) oracle config [] = none := by
  have hb : buildURL config.baseURL [] = none := by
    unfold buildURL
    rw [if_neg hbase]
  refine ⟨?_, ?_, ?_, ?_⟩ <;>
    simp [Get, Post, Put, Delete, doRequestWithRetry, hb]

/-- C9 witness: base URL `"x"`, empty url: all four methods panic. -/
theorem empty_url_panics_witness :
    Get (alwaysStatusOracle 200) ⟨['x'], 0, 0, 0, 1⟩ [] (none : Option Unit)
        = none ∧
    Post (alwaysStatusOracle 200) ⟨['x'], 0, 0, 0, 1⟩ [] (none : Option Unit)
        = none ∧
    Put (alwaysStatusOracle 200) ⟨['x'], 0, 0, 0, 1⟩ [] (none : Option Unit)
        = none ∧
    Delete (σ := Unit) (alwaysStatusOracle 200) ⟨['x'], 0, 0, 0, 1⟩ []
        = none :=
  empty_url_panics (alwaysStatusOracle 200) ⟨['x'], 0, 0, 0, 1⟩ none
    (by decide)

/-- C10: an attempt receiving a 2xx response with an empty body while a
result destination was supplied succeeds and leaves the destination
completely unchanged: `json.Unmarshal` is skipped for a zero-length body. -/
theorem success_empty_body_leaves_dest_unchanged {σ : Type}
    (method url : List Char) (hasBody : Bool) (env : AttemptEnv σ) (d : σ)
    (bs : List Char) (status : Nat)
    (hm : env.marshal = .ok bs) (hc : env.createErr = none)
    (hdo : env.doResult = .ok (status, [])) (hr : env.readErr = none)
    (h2 : 200 ≤ status) (h3 : status < 300) :
    doRequest method url hasBody env (some d) = (.ok (), some d) := by
  have hcore : doRequestCore method url env (some d) = (.ok (), some d) := by
    unfold doRequestCore
    simp only [hc, hdo, hr]
    rw [if_neg (by omega)]
    simp
  cases hasBody <;> simp [doRequest, hm, hcore]

/-- C10 witness: a 204 response with empty body leaves the destination
value 5 untouched even though the decoder would write 9. -/
theorem success_empty_body_leaves_dest_unchanged_witness :
    doRequest ['G'] ['u'] false emptyBodyEnv (some 5) = (.ok (), some 5) :=
  success_empty_body_leaves_dest_unchanged ['G'] ['u'] false emptyBodyEnv 5
    [] 204 rfl rfl rfl rfl (by decide) (by decide)

end HttpClient
